import Mathlib

/-!
Shallow embedding of prescaledFastAdj, src/prescaledfastadj/core.c.

The C file implements a Python extension type AdjacencyCore.  The external
collaborators (the NFFT fastsum engine, ARPACK, libm sqrt, numpy
marshalling) are modelled as explicit parameters; the orchestration logic
of core.c (lifecycle, validation, kernel-dependent diagonal corrections,
default derivations) is translated directly.

Doubles are modelled as real numbers; a numpy array entry that is not
convertible to a float is modelled as the value none.
-/

namespace PrescaledFastAdj

/-- Kinds of Python exceptions the core raises. -/
inductive PyError where
  | runtimeError
  | valueError
  | typeError
deriving DecidableEq

/-- Model of a numpy array: its dimensions plus the flattened row-major
entries.  An entry none stands for an object that is not convertible to a
float. -/
structure NpArray where
  shape : List Nat
  data : List (Option ℝ)

/-- Model of PyFloat_AsDouble: returns the value on numeric input and -1.0
on a conversion error (core.c checks PyErr_Occurred only after the copy
loops; the pending error is modelled by testing isNone on the entries
afterwards). -/
def pyFloatAsDouble : Option ℝ → ℝ
  | some v => v
  | none => -1

/-- Model of AdjacencyCoreObject together with the buffers of the fastsum
plan it owns (x, y, alpha, f).  The flag fastsumValid models whether
self.fastsum is non-null (check_fastsum). -/
structure AdjacencyCore where
  kernel : Int
  d : Int
  sigma : ℝ
  N : Int
  p : Int
  m : Int
  eps : ℝ
  NN : Int
  diagonal : ℝ
  n : Nat
  fastsumValid : Bool
  x : List ℝ
  y : List ℝ
  alpha : List ℝ
  f : List ℝ

/-- The NN derivation loop of AdjacencyCore_init, lines 81-85 of core.c:
starting from NN = 2, double while 2*N > NN.  The C while loop is given
explicit fuel; deriveNN supplies enough fuel for the loop to finish. -/
def nnLoop (N : Int) : Nat → Int → Int
  | 0, acc => acc
  | fuel+1, acc => if 2*N > acc then nnLoop N fuel (2*acc) else acc

/-- Derived oversampled grid size when the constructor argument NN is 0. -/
def deriveNN (N : Int) : Int := nnLoop N (2*N).toNat 2

/-- Model of AdjacencyCore_init (core.c lines 75-134) on already-parsed,
correctly-typed arguments.  The body never fails: there is no validation of
d, sigma or N; the plan is created for kernel 1, 2, 3 or any other value
(the fallback also uses the gaussian kernel). -/
def AdjacencyCore_init (kernel d : Int) (sigma : ℝ) (N p m : Int) (eps : ℝ)
    (NNarg : Int) : Except PyError AdjacencyCore :=
  Except.ok {
    kernel := kernel, d := d, sigma := sigma, N := N, p := p, m := m,
    eps := eps
    NN := if NNarg = 0 then deriveNN N else NNarg
    diagonal := 0, n := 0, fastsumValid := true
    x := [], y := [], alpha := [], f := [] }

/-- Model of remove_points (core.c lines 47-60): if points are bound,
finalize the source and target nodes (dropping x, y, alpha, f) and set
n to 0; otherwise do nothing. -/
def remove_points (core : AdjacencyCore) : AdjacencyCore :=
  if core.n ≠ 0 then
    { core with x := [], y := [], alpha := [], f := [], n := 0 }
  else core

/-- The contents read into a buffer by the copy loops of core.c: the first
cnt entries of the flattened array, each through PyFloat_AsDouble. -/
def readFloats (arr : NpArray) (cnt : Nat) : List ℝ :=
  (arr.data.take cnt).map pyFloatAsDouble

/-- The operator state after fastsum_init_guru_source_nodes,
fastsum_init_guru_target_nodes and the coordinate copy loops of
AdjacencyCore_setpoints: k points bound, the coordinates in both the source
and the target role, and freshly allocated (zero-modelled) alpha and f
buffers of length k. -/
def boundCore (core0 : AdjacencyCore) (k : Nat) (coords : List ℝ) :
    AdjacencyCore :=
  { core0 with
    n := k, x := coords, y := coords,
    alpha := List.replicate k 0, f := List.replicate k 0 }

/-- Model of AdjacencyCore_setpoints (core.c lines 162-218).  Points are
always removed first; an absent argument leaves the disabled state; a shape
mismatch is a TypeError; a non-empty well-shaped array is copied into both
the source and the target buffers and only afterwards is the pending
conversion error checked, rolling back via remove_points. -/
def AdjacencyCore_setpoints (core : AdjacencyCore) (arg : Option NpArray) :
    AdjacencyCore × Except PyError Unit :=
  if core.fastsumValid = false then (core, Except.error PyError.runtimeError)
  else
    match arg with
    | none => (remove_points core, Except.ok ())
    | some arr =>
      if arr.shape.length ≠ 2 ∨
          ((arr.shape.getD 1 0 : Nat) : Int) ≠ (remove_points core).d then
        (remove_points core, Except.error PyError.typeError)
      else if arr.shape.getD 0 0 = 0 then (remove_points core, Except.ok ())
      else if (arr.data.take
          (arr.shape.getD 0 0 * (remove_points core).d.toNat)).any
          Option.isNone then
        (remove_points (boundCore (remove_points core) (arr.shape.getD 0 0)
          (readFloats arr (arr.shape.getD 0 0 * (remove_points core).d.toNat))),
          Except.error PyError.typeError)
      else
        (boundCore (remove_points core) (arr.shape.getD 0 0)
          (readFloats arr (arr.shape.getD 0 0 * (remove_points core).d.toNat)),
          Except.ok ())

/-- Model of AdjacencyCore_getpoints (core.c lines 137-160): absent when no
points are bound, otherwise a fresh (n, d) array copied from the plan
buffer x. -/
def AdjacencyCore_getpoints (core : AdjacencyCore) :
    Except PyError (Option NpArray) :=
  if core.fastsumValid = false then Except.error PyError.runtimeError
  else if core.n = 0 then Except.ok none
  else Except.ok (some {
    shape := [core.n, core.d.toNat],
    data := (core.x.take (core.n * core.d.toNat)).map some })

/-- The kernel-dependent coefficient multiplying the stored weight in the
output loops of AdjacencyCore_apply (core.c lines 278-297); the same four
branch blocks recur in the degree loop and in the reverse-communication
loop of AdjacencyCore_normalized_eigs. -/
def diagCoeff (kernel : Int) (diagonal : ℝ) : ℝ :=
  if kernel = 1 then diagonal - 1
  else if kernel = 2 then diagonal
  else if kernel = 3 then diagonal - 1
  else diagonal - 1

/-- Model of AdjacencyCore_apply (core.c lines 220-300).  The two engine
transforms fastsum_trafo and fastsum_exact are abstracted as functions tE
and eE from the alpha buffer to the f buffer.  Order of operations follows
the C code: plan check, n check, shape check (pure reads), then the copy of
the weights into alpha, then the pending-conversion-error check, then the
transform and output assembly. -/
def AdjacencyCore_apply (core : AdjacencyCore) (tE eE : List ℝ → List ℝ)
    (arr : NpArray) (exact : Bool) :
    AdjacencyCore × Except PyError (List ℝ) :=
  if core.fastsumValid = false then (core, Except.error PyError.runtimeError)
  else if core.n = 0 then (core, Except.error PyError.runtimeError)
  else if arr.shape.length ≠ 1 ∨ arr.shape.getD 0 0 ≠ core.n then
    (core, Except.error PyError.valueError)
  else if (arr.data.take core.n).any Option.isNone then
    ({ core with alpha := readFloats arr core.n },
      Except.error PyError.typeError)
  else
    ({ core with
        alpha := readFloats arr core.n,
        f := (if exact then eE else tE) (readFloats arr core.n) },
      Except.ok ((List.range core.n).map fun i =>
        ((if exact then eE else tE) (readFloats arr core.n)).getD i 0 +
          diagCoeff core.kernel core.diagonal *
            (readFloats arr core.n).getD i 0))

/-- The ncv default derivation of AdjacencyCore_normalized_eigs
(core.c lines 332-339). -/
def deriveNcv (n nev ncv : Int) : Int :=
  if ncv ≤ 0 then
    if nev < 10 then 20
    else if 2*nev ≥ n then n
    else 2*nev + 1
  else ncv

/-- The kernel-dependent additive term in the degree computation of
AdjacencyCore_normalized_eigs (core.c lines 356-375). -/
def degShift (kernel : Int) (diagonal : ℝ) : ℝ :=
  if kernel = 1 then diagonal - 1
  else if kernel = 2 then diagonal
  else if kernel = 3 then diagonal - 1
  else diagonal - 1

/-- Outcome of the abstracted ARPACK collaborator: the final dsaupd status,
the dseupd status, the converged ritz values d and the vector storage v. -/
structure EigsOutcome where
  info1 : Int
  info2 : Int
  ritz : List ℝ
  vecs : List ℝ

/-- Model of AdjacencyCore_normalized_eigs (core.c lines 303-499).  The
whole dsaupd/dseupd reverse-communication exchange is abstracted as a
solver that receives the matrix-vector operator the C loop implements
(lines 397-436) together with nev, tol, ncv and maxiter; rsqrt abstracts
the libm expression 1.0/sqrt(x).  Guard order follows the C code:
check_fastsum, then the n check, before any derivation or work. -/
def AdjacencyCore_normalized_eigs (core : AdjacencyCore)
    (tE : List ℝ → List ℝ) (rsqrt : ℝ → ℝ)
    (solver : (List ℝ → List ℝ) → Int → ℝ → Int → Int → EigsOutcome)
    (nev : Int) (tol : ℝ) (maxiter ncv : Int) (rvecs : Bool) :
    Except PyError (List ℝ × Option (List (List ℝ))) :=
  if core.fastsumValid = false then Except.error PyError.runtimeError
  else if core.n = 0 then Except.error PyError.runtimeError
  else
    let n := core.n
    let ncv2 := deriveNcv (n : Int) nev ncv
    let maxiter2 := if maxiter ≤ 0 then 300 else maxiter
    let fdeg := tE (List.replicate n 1)
    let dinv := (List.range n).map fun i =>
      rsqrt (fdeg.getD i 0 + degShift core.kernel core.diagonal)
    let matvec := fun v : List ℝ =>
      let alpha := (List.range n).map fun i => dinv.getD i 0 * v.getD i 0
      let fv := tE alpha
      (List.range n).map fun i =>
        v.getD i 0 + dinv.getD i 0 *
          (fv.getD i 0 + diagCoeff core.kernel core.diagonal * alpha.getD i 0)
    let out := solver matvec nev tol ncv2 maxiter2
    if out.info1 < 0 then Except.error PyError.runtimeError
    else if out.info2 < 0 then Except.error PyError.runtimeError
    else
      let eigenvalues := (List.range nev.toNat).map fun j => out.ritz.getD j 0 - 1
      if rvecs then
        Except.ok (eigenvalues, some ((List.range n).map fun i =>
          (List.range nev.toNat).map fun j => out.vecs.getD (j * n + i) 0))
      else Except.ok (eigenvalues, none)

/-- Diagonal-correction policy exactly as the specification words it:
correction is diagonal * weight for the SquaredGaussian variant (kernel 2)
and (diagonal - 1.0) * weight for the Gaussian (1), LaplacianRBF (3) and
any default or unrecognized variant. -/
def specDiagCorrection (kernel : Int) (diagonal w : ℝ) : ℝ :=
  if kernel = 2 then diagonal * w else (diagonal - 1) * w

/-- A concrete operator with one bound point, used to instantiate proved
properties on closed inputs. -/
def sampleCore : AdjacencyCore := {
  kernel := 1, d := 1, sigma := 1, N := 4, p := 2, m := 2, eps := 1,
  NN := 8, diagonal := 0, n := 1, fastsumValid := true,
  x := [0], y := [0], alpha := [5], f := [0] }

/-- A concrete freshly-constructed operator with no bound points. -/
def emptyCore : AdjacencyCore := {
  kernel := 1, d := 1, sigma := 1, N := 4, p := 2, m := 2, eps := 1,
  NN := 8, diagonal := 0, n := 0, fastsumValid := true,
  x := [], y := [], alpha := [], f := [] }

/-! Helper lemmas. -/

theorem pyFloatAsDouble_some (v : ℝ) : pyFloatAsDouble (some v) = v := rfl

theorem nnLoop_ge_acc (N : Int) : ∀ (fuel : Nat) (acc : Int),
    0 ≤ acc → acc ≤ nnLoop N fuel acc := by
  intro fuel
  induction fuel with
  | zero => intro acc _; simp [nnLoop]
  | succ k ih =>
    intro acc h
    simp only [nnLoop]
    split_ifs with hc
    · exact le_trans (by omega) (ih (2*acc) (by omega))
    · exact le_refl acc

theorem nnLoop_pow2 (N : Int) : ∀ (fuel : Nat) (acc : Int),
    (∃ e : Nat, acc = 2^e) → ∃ e : Nat, nnLoop N fuel acc = 2^e := by
  intro fuel
  induction fuel with
  | zero => intro acc h; simpa [nnLoop] using h
  | succ k ih =>
    intro acc h
    simp only [nnLoop]
    split_ifs with hc
    · apply ih
      obtain ⟨e, he⟩ := h
      exact ⟨e+1, by rw [he]; ring⟩
    · exact h

theorem nnLoop_ge_target (N : Int) : ∀ (fuel : Nat) (acc : Int),
    2*N ≤ acc * 2^fuel → 2*N ≤ nnLoop N fuel acc := by
  intro fuel
  induction fuel with
  | zero => intro acc h; simpa [nnLoop] using h
  | succ k ih =>
    intro acc h
    simp only [nnLoop]
    split_ifs with hc
    · apply ih
      calc 2*N ≤ acc * 2^(k+1) := h
        _ = (2*acc) * 2^k := by ring
    · omega

theorem nnLoop_min (N : Int) : ∀ (fuel : Nat) (acc : Int),
    nnLoop N fuel acc = acc ∨ nnLoop N fuel acc < 4*N := by
  intro fuel
  induction fuel with
  | zero => intro acc; left; simp [nnLoop]
  | succ k ih =>
    intro acc
    simp only [nnLoop]
    split_ifs with hc
    · rcases ih (2*acc) with h | h
      · right; rw [h]; linarith
      · right; exact h
    · left; rfl

theorem deriveNN_fuel (N : Int) : 2*N ≤ 2 * 2^((2*N).toNat) := by
  rcases le_or_lt (2*N) 0 with h | h
  · have h2 : (0:Int) < 2^((2*N).toNat) := by positivity
    omega
  · have h1 : ((2*N).toNat : Int) = 2*N := Int.toNat_of_nonneg (by omega)
    have h2 : (2*N).toNat < 2^((2*N).toNat) := Nat.lt_two_pow _
    have h3 : (((2*N).toNat : Nat) : Int) < (((2:Nat)^((2*N).toNat) : Nat) : Int) := by
      exact_mod_cast h2
    have h4 : (((2:Nat)^((2*N).toNat) : Nat) : Int) = 2^((2*N).toNat) := by push_cast; ring
    omega

theorem deriveNN_ge_two (N : Int) : 2 ≤ deriveNN N :=
  nnLoop_ge_acc N _ 2 (by norm_num)

theorem deriveNN_pow2 (N : Int) : ∃ e : Nat, deriveNN N = 2^e :=
  nnLoop_pow2 N _ 2 ⟨1, by norm_num⟩

theorem deriveNN_ge (N : Int) : 2*N ≤ deriveNN N :=
  nnLoop_ge_target N _ 2 (deriveNN_fuel N)

theorem deriveNN_min (N : Int) : deriveNN N = 2 ∨ deriveNN N < 4*N :=
  nnLoop_min N _ 2

theorem init_NN_derived (kernel d : Int) (sigma : ℝ) (N p m : Int) (eps : ℝ) :
    ∃ c, AdjacencyCore_init kernel d sigma N p m eps 0 = Except.ok c ∧
      c.NN = deriveNN N :=
  ⟨_, rfl, by simp [AdjacencyCore_init]⟩

theorem map_pyFloat_some (ws : List ℝ) :
    (ws.map some).map pyFloatAsDouble = ws := by
  rw [List.map_map]
  have h : pyFloatAsDouble ∘ some = id := by
    funext v
    rfl
  rw [h, List.map_id]

theorem all_some_roundtrip (l : List (Option ℝ)) (h : ∀ o ∈ l, o.isSome) :
    (l.map pyFloatAsDouble).map some = l := by
  induction l with
  | nil => simp
  | cons a t ih =>
    cases a with
    | none => simpa using h none (by simp)
    | some v =>
      simp only [List.map_cons, pyFloatAsDouble]
      rw [ih (fun o ho => h o (by simp [ho]))]

theorem any_isNone_map_some (ws : List ℝ) :
    (ws.map some).any Option.isNone = false := by
  simp [List.any_map, Function.comp]

theorem any_isNone_eq_false (l : List (Option ℝ)) (h : ∀ o ∈ l, o.isSome) :
    l.any Option.isNone = false := by
  rw [List.any_eq_false]
  intro o ho
  have h2 := h o ho
  cases o with
  | none => simp at h2
  | some v => simp

theorem getD_range_map (g : Nat → ℝ) (n i : Nat) (h : i < n) :
    ((List.range n).map g).getD i 0 = g i := by
  have h1 : i < ((List.range n).map g).length := by simpa using h
  rw [List.getD_eq_getElem _ _ h1]
  simp

theorem getD_range_map_entry (f ws : List ℝ) (c : ℝ) (n i : Nat) (h : i < n) :
    ((List.range n).map fun j => f.getD j 0 + c * ws.getD j 0).getD i 0 =
      f.getD i 0 + c * ws.getD i 0 :=
  getD_range_map _ n i h

theorem diagCoeff_mul_spec (kernel : Int) (diagonal w : ℝ) :
    diagCoeff kernel diagonal * w = specDiagCorrection kernel diagonal w := by
  unfold diagCoeff specDiagCorrection
  split_ifs <;> first | (exfalso; omega) | ring

theorem setpoints_none_eq (core : AdjacencyCore) :
    AdjacencyCore_setpoints core none =
      if core.fastsumValid = false then
        (core, Except.error PyError.runtimeError)
      else (remove_points core, Except.ok ()) := rfl

theorem setpoints_some_eq (core : AdjacencyCore) (arr : NpArray) :
    AdjacencyCore_setpoints core (some arr) =
      if core.fastsumValid = false then
        (core, Except.error PyError.runtimeError)
      else if arr.shape.length ≠ 2 ∨
          ((arr.shape.getD 1 0 : Nat) : Int) ≠ (remove_points core).d then
        (remove_points core, Except.error PyError.typeError)
      else if arr.shape.getD 0 0 = 0 then (remove_points core, Except.ok ())
      else if (arr.data.take
          (arr.shape.getD 0 0 * (remove_points core).d.toNat)).any
          Option.isNone then
        (remove_points (boundCore (remove_points core) (arr.shape.getD 0 0)
          (readFloats arr
            (arr.shape.getD 0 0 * (remove_points core).d.toNat))),
          Except.error PyError.typeError)
      else
        (boundCore (remove_points core) (arr.shape.getD 0 0)
          (readFloats arr (arr.shape.getD 0 0 * (remove_points core).d.toNat)),
          Except.ok ()) := rfl

theorem remove_points_d (core : AdjacencyCore) :
    (remove_points core).d = core.d := by
  unfold remove_points
  split_ifs <;> rfl

theorem remove_points_valid (core : AdjacencyCore) :
    (remove_points core).fastsumValid = core.fastsumValid := by
  unfold remove_points
  split_ifs <;> rfl

theorem remove_points_n (core : AdjacencyCore) : (remove_points core).n = 0 := by
  unfold remove_points
  split_ifs with h
  · rfl
  · omega

/-! Claim theorems. -/

/-- C2, counterexample: a constructor call with non-positive d, sigma and N
still produces an operator; AdjacencyCore_init performs no validation. -/
theorem init_accepts_nonpositive :
    ((-1:Int) ≤ 0) ∧ ((-1:ℝ) ≤ 0) ∧
    ∃ c, AdjacencyCore_init 1 (-1) (-1) (-1) 4 4 1 0 = Except.ok c :=
  ⟨by norm_num, by norm_num, ⟨_, rfl⟩⟩

/-- C2 (amended): construction never rejects its arguments; for every
kernel, d, sigma, N, p, m, eps and NN an operator is produced, with the
given configuration stored, no points bound and a valid plan. -/
theorem init_never_rejects (kernel d : Int) (sigma : ℝ) (N p m : Int)
    (eps : ℝ) (NNarg : Int) :
    ∃ c, AdjacencyCore_init kernel d sigma N p m eps NNarg = Except.ok c ∧
      c.d = d ∧ c.sigma = sigma ∧ c.N = N ∧ c.n = 0 ∧ c.fastsumValid = true :=
  ⟨_, rfl, rfl, rfl, rfl, rfl, rfl⟩

/-- C3, counterexample: constructing with N = 2 and NN unset derives
NN = 4, which is not strictly greater than 2*N = 4, so the derived NN is
not the smallest power of two strictly greater than 2*N. -/
theorem NN_not_strictly_greater :
    ∃ c, AdjacencyCore_init 1 3 1 2 4 4 1 0 = Except.ok c ∧
      c.NN = 4 ∧ ¬(2*(2:Int) < c.NN) :=
  ⟨_, rfl, by decide, by decide⟩

/-- C3 (amended): for every construction in which NN is not supplied, the
derived NN is the smallest power of two that is at least 2*N and at least
2: it is a power of two, at least 2, at least 2*N, and no larger than any
power of two that is at least 2 and at least 2*N. -/
theorem NN_smallest_ge (kernel d : Int) (sigma : ℝ) (N p m : Int) (eps : ℝ)
    (M : Int) (hpow : ∃ e : Nat, M = 2^e) (hM2 : 2 ≤ M) (hMge : 2*N ≤ M) :
    ∃ c, AdjacencyCore_init kernel d sigma N p m eps 0 = Except.ok c ∧
      (∃ e : Nat, c.NN = 2^e) ∧ 2 ≤ c.NN ∧ 2*N ≤ c.NN ∧ c.NN ≤ M := by
  obtain ⟨c, hc, hNN⟩ := init_NN_derived kernel d sigma N p m eps
  refine ⟨c, hc, ?_⟩
  rw [hNN]
  refine ⟨deriveNN_pow2 N, deriveNN_ge_two N, deriveNN_ge N, ?_⟩
  rcases deriveNN_min N with h | h
  · omega
  · obtain ⟨k, hk⟩ := deriveNN_pow2 N
    obtain ⟨e, he⟩ := hpow
    have hk1 : 1 ≤ k := by
      by_contra hc2
      have hk0 : k = 0 := by omega
      rw [hk0, pow_zero] at hk
      have h2 := deriveNN_ge_two N
      omega
    obtain ⟨j, hj⟩ : ∃ j, k = j + 1 := ⟨k - 1, by omega⟩
    have hsplit : (2:Int)^k = 2 * 2^j := by rw [hj]; ring
    have h2j : (2:Int)^j < 2*N := by linarith
    have hje : (2:Int)^j < 2^e := by linarith
    have hjk : j < e := by
      by_contra hc3
      push_neg at hc3
      have hle : (2:Int)^e ≤ 2^j := pow_le_pow_right₀ (by norm_num) hc3
      linarith
    have hfin : (2:Int)^k ≤ 2^e := pow_le_pow_right₀ (by norm_num) (by omega)
    linarith

/-- C3, witness: at N = 5 with the power of two M = 16, the derived NN is
a power of two, at least 2, at least 10, and at most 16. -/
theorem NN_smallest_ge_witness :
    (∃ e : Nat, (16:Int) = 2^e) ∧ (2:Int) ≤ 16 ∧ 2*(5:Int) ≤ 16 ∧
    ∃ c, AdjacencyCore_init 1 2 1 5 4 4 1 0 = Except.ok c ∧
      (∃ e : Nat, c.NN = 2^e) ∧ 2 ≤ c.NN ∧ 2*5 ≤ c.NN ∧ c.NN ≤ 16 :=
  ⟨⟨4, by norm_num⟩, by norm_num, by norm_num,
    NN_smallest_ge 1 2 1 5 4 4 1 16 ⟨4, by norm_num⟩ (by norm_num) (by norm_num)⟩

/-- C9: for every valid construction (N ≥ 1) in which NN is not supplied,
the derived NN is a power of two and satisfies 2*N ≤ NN < 4*N. -/
theorem NN_power_of_two_bounds (kernel d : Int) (sigma : ℝ) (N p m : Int)
    (eps : ℝ) (hN : 1 ≤ N) :
    ∃ c, AdjacencyCore_init kernel d sigma N p m eps 0 = Except.ok c ∧
      (∃ e : Nat, c.NN = 2^e) ∧ 2*N ≤ c.NN ∧ c.NN < 4*N := by
  obtain ⟨c, hc, hNN⟩ := init_NN_derived kernel d sigma N p m eps
  refine ⟨c, hc, ?_⟩
  rw [hNN]
  refine ⟨deriveNN_pow2 N, deriveNN_ge N, ?_⟩
  rcases deriveNN_min N with h | h
  · have h1 := deriveNN_ge N
    rw [h] at h1 ⊢
    omega
  · exact h

/-- C9, witness: at N = 3 the derived NN is a power of two with
6 ≤ NN < 12. -/
theorem NN_power_of_two_bounds_witness :
    (1:Int) ≤ 3 ∧
    ∃ c, AdjacencyCore_init 1 2 1 3 4 4 1 0 = Except.ok c ∧
      (∃ e : Nat, c.NN = 2^e) ∧ 2*3 ≤ c.NN ∧ c.NN < 4*3 :=
  ⟨by norm_num, NN_power_of_two_bounds 1 2 1 3 4 4 1 (by norm_num)⟩

/-- C10: supplying NN as 0 is treated exactly like omitting it (the
derivation loop runs), while every non-zero supplied NN is stored verbatim
with no validation. -/
theorem NN_passthrough (kernel d : Int) (sigma : ℝ) (N p m : Int) (eps : ℝ) :
    (∃ c, AdjacencyCore_init kernel d sigma N p m eps 0 = Except.ok c ∧
      c.NN = deriveNN N) ∧
    (∀ NNarg : Int, NNarg ≠ 0 →
      ∃ c, AdjacencyCore_init kernel d sigma N p m eps NNarg = Except.ok c ∧
        c.NN = NNarg) := by
  constructor
  · exact init_NN_derived kernel d sigma N p m eps
  · intro NNarg hne
    exact ⟨_, rfl, by simp [AdjacencyCore_init, hne]⟩

/-- C10, witness: NN = 3 with N = 10 (so NN < 2*N) is accepted verbatim. -/
theorem NN_passthrough_witness :
    (3:Int) ≠ 0 ∧ (3:Int) < 2*10 ∧
    ∃ c, AdjacencyCore_init 1 2 1 10 4 4 1 3 = Except.ok c ∧ c.NN = 3 :=
  ⟨by norm_num, by norm_num, (NN_passthrough 1 2 1 10 4 4 1).2 3 (by norm_num)⟩

/-- C4, counterexample: with n = 5 points, nev = 1 and ncv unset, the
derived ncv is 20, which violates the claimed bound ncv ≤ n. -/
theorem ncv_can_exceed_n :
    (0:Int) < 5 ∧ (1:Int) ≤ 1 ∧ (0:Int) ≤ 0 ∧
    deriveNcv 5 1 0 = 20 ∧ ¬(deriveNcv 5 1 0 ≤ 5) := by decide

/-- C4 (amended): with ncv unset, the ncv actually used is 20 when
nev < 10, else n when 2*nev ≥ n, else 2*nev + 1; the bound
nev < ncv ≤ n additionally holds whenever n ≥ 20 and nev < n, but not in
general. -/
theorem deriveNcv_spec (n nev ncv : Int) (hncv : ncv ≤ 0) (hnev : 1 ≤ nev) :
    deriveNcv n nev ncv =
      (if nev < 10 then 20 else if 2*nev ≥ n then n else 2*nev + 1) ∧
    (20 ≤ n → nev < n →
      nev < deriveNcv n nev ncv ∧ deriveNcv n nev ncv ≤ n) := by
  unfold deriveNcv
  rw [if_pos hncv]
  refine ⟨rfl, ?_⟩
  intro h20 hlt
  split_ifs with h1 h2 <;> omega

/-- C4, witness: at n = 25, nev = 12, ncv unset, the derived ncv satisfies
12 < ncv ≤ 25. -/
theorem deriveNcv_spec_witness :
    (0:Int) ≤ 0 ∧ (1:Int) ≤ 12 ∧ (20:Int) ≤ 25 ∧ (12:Int) < 25 ∧
    (12 < deriveNcv 25 12 0 ∧ deriveNcv 25 12 0 ≤ 25) :=
  ⟨by norm_num, by norm_num, by norm_num, by norm_num,
    (deriveNcv_spec 25 12 0 (by norm_num) (by norm_num)).2 (by norm_num) (by norm_num)⟩

/-- C1: for every operator with n > 0 bound points and every length-n
weight vector of finite reals, apply returns a length-n vector whose i-th
entry is the real part of the engine sum plus the kernel-dependent
diagonal correction on the i-th weight: (diagonal - 1)*w for kernels 1, 3
and any unrecognized variant, diagonal*w for kernel 2. -/
theorem apply_diagonal_correction (core : AdjacencyCore)
    (tE eE : List ℝ → List ℝ) (ws : List ℝ) (exact : Bool)
    (hv : core.fastsumValid = true) (hn : core.n ≠ 0)
    (hw : ws.length = core.n) :
    ∃ out : List ℝ,
      (AdjacencyCore_apply core tE eE ⟨[core.n], ws.map some⟩ exact).2 =
        Except.ok out ∧
      out.length = core.n ∧
      ∀ i, i < core.n →
        out.getD i 0 = ((if exact then eE else tE) ws).getD i 0 +
          specDiagCorrection core.kernel core.diagonal (ws.getD i 0) := by
  have htake : ((ws.map some).take core.n) = ws.map some :=
    List.take_of_length_le (by simp [hw])
  have halpha : readFloats ⟨[core.n], ws.map some⟩ core.n = ws := by
    show ((ws.map some).take core.n).map pyFloatAsDouble = ws
    rw [htake, map_pyFloat_some]
  have hany : (((⟨[core.n], ws.map some⟩ : NpArray).data).take core.n).any
      Option.isNone = false := by
    show ((ws.map some).take core.n).any Option.isNone = false
    rw [htake]
    exact any_isNone_map_some ws
  unfold AdjacencyCore_apply
  rw [if_neg (by simp [hv]), if_neg hn, if_neg (by simp),
    if_neg (by simp [hany])]
  refine ⟨_, rfl, by simp, ?_⟩
  intro i hi
  simp only [halpha]
  rw [getD_range_map_entry _ _ _ core.n i hi, diagCoeff_mul_spec]

/-- C1, witness: a one-point operator with kernel 1 and diagonal 0, the
identity engine and weight vector with entry 2 produces the entry
2 + (0 - 1) * 2. -/
theorem apply_diagonal_correction_witness :
    sampleCore.fastsumValid = true ∧ sampleCore.n ≠ 0 ∧
    [(2:ℝ)].length = sampleCore.n ∧
    ∃ out : List ℝ,
      (AdjacencyCore_apply sampleCore id id ⟨[sampleCore.n], [(2:ℝ)].map some⟩
        false).2 = Except.ok out ∧
      out.length = sampleCore.n ∧
      ∀ i, i < sampleCore.n →
        out.getD i 0 = ((if false then id else id) [(2:ℝ)]).getD i 0 +
          specDiagCorrection sampleCore.kernel sampleCore.diagonal
            ([(2:ℝ)].getD i 0) :=
  ⟨rfl, by decide, rfl,
    apply_diagonal_correction sampleCore id id [(2:ℝ)] false rfl (by decide) rfl⟩

/-- C5, counterexample: a one-point operator with weight buffer [5] given a
single non-numeric weight entry reports a type error, but its plan weight
buffer has been overwritten (to [-1]) by the time the error is detected,
so the operator state is not entirely unaffected. -/
theorem apply_typeerror_mutates_buffer :
    (AdjacencyCore_apply sampleCore id id ⟨[1], [none]⟩ false).2 =
      Except.error PyError.typeError ∧
    (AdjacencyCore_apply sampleCore id id ⟨[1], [none]⟩ false).1.alpha ≠
      sampleCore.alpha := by
  constructor
  · simp [AdjacencyCore_apply, sampleCore, readFloats, pyFloatAsDouble]
  · simp [AdjacencyCore_apply, sampleCore, readFloats, pyFloatAsDouble]
    norm_num

/-- C5 (amended): a shape error on apply (wrong rank or wrong length) is a
pure read that leaves the operator state entirely unchanged; a
non-numeric-entry error is detected only after the plan weight buffer has
been loaded, so apply reports a type error with the weight buffer
overwritten by the converted values (failing entries as -1.0) and every
other part of the state (points, n, configuration) unaffected; neither
failure clears anything. -/
theorem apply_invalid_weights_frame (core : AdjacencyCore)
    (tE eE : List ℝ → List ℝ) (arr : NpArray) (exact : Bool)
    (hv : core.fastsumValid = true) (hn : core.n ≠ 0) :
    ((arr.shape.length ≠ 1 ∨ arr.shape.getD 0 0 ≠ core.n) →
      AdjacencyCore_apply core tE eE arr exact =
        (core, Except.error PyError.valueError)) ∧
    (arr.shape.length = 1 → arr.shape.getD 0 0 = core.n →
      (arr.data.take core.n).any Option.isNone = true →
      AdjacencyCore_apply core tE eE arr exact =
        ({ core with alpha := readFloats arr core.n },
          Except.error PyError.typeError)) := by
  constructor
  · intro hbad
    unfold AdjacencyCore_apply
    rw [if_neg (by simp [hv]), if_neg hn, if_pos hbad]
  · intro h1 h2 hbad
    unfold AdjacencyCore_apply
    rw [if_neg (by simp [hv]), if_neg hn,
      if_neg (by push_neg; exact ⟨h1, h2⟩), if_pos hbad]

/-- C5, witness: a two-entry weight array against a one-point operator hits
the pure-read shape error and the state is returned unchanged. -/
theorem apply_invalid_weights_frame_witness :
    sampleCore.fastsumValid = true ∧ sampleCore.n ≠ 0 ∧
    (([2, 2] : List Nat).length ≠ 1 ∨ ([2, 2] : List Nat).getD 0 0 ≠ sampleCore.n) ∧
    AdjacencyCore_apply sampleCore id id ⟨[2, 2], [some 1, some 1]⟩ false =
      (sampleCore, Except.error PyError.valueError) :=
  ⟨rfl, by decide, by decide,
    (apply_invalid_weights_frame sampleCore id id ⟨[2, 2], [some 1, some 1]⟩
      false rfl (by decide)).1 (by decide)⟩

/-- C6: a setPoints argument that passes the shape check but contains a
non-numeric entry signals an error and rolls the operator back to the
disabled state: n = 0 and no bound node buffers survive. -/
theorem setpoints_nonnumeric_rollback (core : AdjacencyCore)
    (k d2 : Nat) (data : List (Option ℝ)) (hv : core.fastsumValid = true)
    (hd : (d2 : Int) = core.d) (hk : k ≠ 0)
    (hbad : (data.take (k * core.d.toNat)).any Option.isNone = true) :
    (AdjacencyCore_setpoints core (some ⟨[k, d2], data⟩)).1.n = 0 ∧
    (AdjacencyCore_setpoints core (some ⟨[k, d2], data⟩)).1.x = [] ∧
    (AdjacencyCore_setpoints core (some ⟨[k, d2], data⟩)).1.y = [] ∧
    (AdjacencyCore_setpoints core (some ⟨[k, d2], data⟩)).1.alpha = [] ∧
    (AdjacencyCore_setpoints core (some ⟨[k, d2], data⟩)).1.f = [] ∧
    (AdjacencyCore_setpoints core (some ⟨[k, d2], data⟩)).2 =
      Except.error PyError.typeError := by
  have hc3 : (((⟨[k, d2], data⟩ : NpArray)).data.take
      (([k, d2] : List Nat).getD 0 0 * (remove_points core).d.toNat)).any
      Option.isNone = true := by
    rw [remove_points_d core]
    exact hbad
  rw [setpoints_some_eq]
  rw [if_neg (by simp [hv]), if_neg (by simp [remove_points_d core, hd]),
    if_neg (by simpa using hk), if_pos hc3]
  refine ⟨?_, ?_, ?_, ?_, ?_, ?_⟩ <;> simp [remove_points, boundCore, hk]

/-- C6, witness: a (1,1) array holding one non-numeric entry against a
one-point operator with d = 1 rolls back to the disabled state. -/
theorem setpoints_nonnumeric_rollback_witness :
    sampleCore.fastsumValid = true ∧
    ((1 : Nat) : Int) = sampleCore.d ∧ (1 : Nat) ≠ 0 ∧
    (([none] : List (Option ℝ)).take (1 * sampleCore.d.toNat)).any
      Option.isNone = true ∧
    ((AdjacencyCore_setpoints sampleCore (some ⟨[1, 1], [none]⟩)).1.n = 0 ∧
     (AdjacencyCore_setpoints sampleCore (some ⟨[1, 1], [none]⟩)).1.x = [] ∧
     (AdjacencyCore_setpoints sampleCore (some ⟨[1, 1], [none]⟩)).1.y = [] ∧
     (AdjacencyCore_setpoints sampleCore (some ⟨[1, 1], [none]⟩)).1.alpha = [] ∧
     (AdjacencyCore_setpoints sampleCore (some ⟨[1, 1], [none]⟩)).1.f = [] ∧
     (AdjacencyCore_setpoints sampleCore (some ⟨[1, 1], [none]⟩)).2 =
       Except.error PyError.typeError) := by
  refine ⟨rfl, by decide, by decide, by decide, ?_⟩
  exact setpoints_nonnumeric_rollback sampleCore 1 1 [none] rfl
    (by decide) (by decide) (by decide)

/-- C7: with no points bound (n = 0), both apply and normalized_eigs
report a runtime error and return no value. -/
theorem lifecycle_guard (core : AdjacencyCore) (tE eE : List ℝ → List ℝ)
    (rsqrt : ℝ → ℝ)
    (solver : (List ℝ → List ℝ) → Int → ℝ → Int → Int → EigsOutcome)
    (arr : NpArray) (exact : Bool) (nev maxiter ncv : Int) (tol : ℝ)
    (rvecs : Bool) (hv : core.fastsumValid = true) (hn : core.n = 0) :
    (AdjacencyCore_apply core tE eE arr exact).2 =
      Except.error PyError.runtimeError ∧
    AdjacencyCore_normalized_eigs core tE rsqrt solver nev tol maxiter ncv
      rvecs = Except.error PyError.runtimeError := by
  constructor
  · simp [AdjacencyCore_apply, hv, hn]
  · simp [AdjacencyCore_normalized_eigs, hv, hn]

/-- C7, witness: a freshly constructed operator (n = 0) rejects both calls
with a runtime error. -/
theorem lifecycle_guard_witness :
    emptyCore.fastsumValid = true ∧ emptyCore.n = 0 ∧
    ((AdjacencyCore_apply emptyCore id id ⟨[1], [some 1]⟩ false).2 =
      Except.error PyError.runtimeError ∧
     AdjacencyCore_normalized_eigs emptyCore id id
       (fun _ _ _ _ _ => ⟨0, 0, [], []⟩) 6 0 0 0 true =
       Except.error PyError.runtimeError) :=
  ⟨rfl, rfl, lifecycle_guard emptyCore id id id (fun _ _ _ _ _ => ⟨0, 0, [], []⟩)
    ⟨[1], [some 1]⟩ false 6 0 0 0 true rfl rfl⟩

/-- C8: round trip of the points accessor.  After a successful
setPoints with a (k, d) table of numeric entries and k > 0, the operator
has n = k and getPoints returns an equal table; and setPoints of an absent
argument followed by getPoints returns absent with n = 0, from any prior
state. -/
theorem points_roundtrip (core : AdjacencyCore)
    (hv : core.fastsumValid = true) :
    (∀ (k d2 : Nat) (data : List (Option ℝ)),
      k ≠ 0 → (d2 : Int) = core.d → data.length = k * d2 →
      (∀ o ∈ data, o.isSome) →
      (AdjacencyCore_setpoints core (some ⟨[k, d2], data⟩)).2 = Except.ok () ∧
      (AdjacencyCore_setpoints core (some ⟨[k, d2], data⟩)).1.n = k ∧
      AdjacencyCore_getpoints
        (AdjacencyCore_setpoints core (some ⟨[k, d2], data⟩)).1 =
        Except.ok (some ⟨[k, d2], data⟩)) ∧
    ((AdjacencyCore_setpoints core none).2 = Except.ok () ∧
     (AdjacencyCore_setpoints core none).1.n = 0 ∧
     AdjacencyCore_getpoints (AdjacencyCore_setpoints core none).1 =
       Except.ok none) := by
  constructor
  · intro k d2 data hk hd hlen hall
    have hdn : core.d.toNat = d2 := by
      rw [← hd]
      exact Int.toNat_natCast d2
    have hcnt : ([k, d2] : List Nat).getD 0 0 * (remove_points core).d.toNat =
        k * d2 := by
      rw [remove_points_d core, hdn]
      rfl
    have hx : readFloats ⟨[k, d2], data⟩
        (([k, d2] : List Nat).getD 0 0 * (remove_points core).d.toNat) =
        data.map pyFloatAsDouble := by
      unfold readFloats
      rw [hcnt]
      show (data.take (k * d2)).map pyFloatAsDouble = data.map pyFloatAsDouble
      rw [← hlen, List.take_length]
    have hany : ((⟨[k, d2], data⟩ : NpArray).data.take
        (([k, d2] : List Nat).getD 0 0 * (remove_points core).d.toNat)).any
        Option.isNone = false := by
      rw [hcnt]
      show (data.take (k * d2)).any Option.isNone = false
      rw [← hlen, List.take_length]
      exact any_isNone_eq_false data hall
    have hsp : AdjacencyCore_setpoints core (some ⟨[k, d2], data⟩) =
        (boundCore (remove_points core) k (data.map pyFloatAsDouble),
          Except.ok ()) := by
      rw [setpoints_some_eq]
      rw [if_neg (by simp [hv]), if_neg (by simp [remove_points_d core, hd]),
        if_neg (by simpa using hk), if_neg (by rw [hany]; simp), hx]
      exact rfl
    rw [hsp]
    refine ⟨rfl, rfl, ?_⟩
    have hvb : (boundCore (remove_points core) k
        (data.map pyFloatAsDouble)).fastsumValid = true := by
      show (remove_points core).fastsumValid = true
      rw [remove_points_valid core]
      exact hv
    have hdb : (boundCore (remove_points core) k
        (data.map pyFloatAsDouble)).d = core.d := remove_points_d core
    unfold AdjacencyCore_getpoints
    rw [if_neg (by simp [hvb]), if_neg (by simpa using hk)]
    have hshape : (boundCore (remove_points core) k
        (data.map pyFloatAsDouble)).d.toNat = d2 := by
      rw [hdb, hdn]
    have hdata : ((boundCore (remove_points core) k
        (data.map pyFloatAsDouble)).x.take
        ((boundCore (remove_points core) k (data.map pyFloatAsDouble)).n *
          (boundCore (remove_points core) k
            (data.map pyFloatAsDouble)).d.toNat)).map some = data := by
      rw [hshape]
      show ((data.map pyFloatAsDouble).take (k * d2)).map some = data
      have hlen2 : (data.map pyFloatAsDouble).length = k * d2 := by
        rw [List.length_map, hlen]
      rw [← hlen2, List.take_length]
      exact all_some_roundtrip data hall
    rw [hdata, hshape]
    exact rfl
  · have hsp : AdjacencyCore_setpoints core none =
        (remove_points core, Except.ok ()) := by
      rw [setpoints_none_eq, if_neg (by simp [hv])]
    refine ⟨?_, ?_, ?_⟩
    · rw [hsp]
    · rw [hsp]
      exact remove_points_n core
    · rw [hsp]
      unfold AdjacencyCore_getpoints
      rw [if_neg (by simp [remove_points_valid core, hv]),
        if_pos (remove_points_n core)]

/-- C8, witness: setting a concrete (1,1) table on a fresh operator round
trips, and clearing it returns absent. -/
theorem points_roundtrip_witness :
    emptyCore.fastsumValid = true ∧ (1:Nat) ≠ 0 ∧ ((1:Nat) : Int) = emptyCore.d ∧
    ([some (2:ℝ)] : List (Option ℝ)).length = 1 * 1 ∧
    (AdjacencyCore_setpoints emptyCore (some ⟨[1, 1], [some (2:ℝ)]⟩)).2 =
      Except.ok () ∧
    (AdjacencyCore_setpoints emptyCore (some ⟨[1, 1], [some (2:ℝ)]⟩)).1.n = 1 ∧
    AdjacencyCore_getpoints
      (AdjacencyCore_setpoints emptyCore (some ⟨[1, 1], [some (2:ℝ)]⟩)).1 =
      Except.ok (some ⟨[1, 1], [some (2:ℝ)]⟩) := by
  refine ⟨rfl, by decide, by decide, by decide, ?_⟩
  exact (points_roundtrip emptyCore rfl).1 1 1 [some (2:ℝ)] (by decide)
    (by decide) (by decide) (by simp)

end PrescaledFastAdj
